import Mathlib

/-!
# Dragonfly2: scheduler gateway, integer helpers and OSS object wrapper

A shallow embedding of

* `pkg/rpc/scheduler/server/server.go` (the `proxy` in front of the scheduling capability),
* `pkg/math/math.go` (`MaxInt`, `MaxInt32`, `MaxInt64`, `MinInt`, ...),
* `pkg/objectstorage/oss.go` (`GetOject`, `CreateObject`, `DeleteObject`).

Go code with side effects is embedded as explicit state passing over a `World`:
the metrics sink, the private state of the scheduling capability and a trace of
the effects performed so far.  A Go call either returns or panics (`Outcome`);
the world is kept in both cases so that deferred calls can run after a panic.
-/

namespace Dragonfly

/-! ## Go values -/

/-- A non-nil Go `error` value. -/
structure Error where
  msg : String
deriving DecidableEq, Repr

/-- The Go interface type `error`; `none` is `nil`. -/
abbrev GoError := Option Error

/-- How a Go call ends: it returns a value or it panics. -/
inductive Outcome (α : Type) where
  | ret (a : α)
  | panic (msg : String)
deriving DecidableEq, Repr

/-- Post-compose a function on the returned value; a panic stays a panic. -/
def Outcome.map {α β : Type} (f : α → β) : Outcome α → Outcome β
  | .ret a => .ret (f a)
  | .panic msg => .panic msg

/-- The message of the runtime panic raised by dereferencing `nil`. -/
def nilDereference : String :=
  "runtime error: invalid memory address or nil pointer dereference"

/-! ## Messages of the scheduler protocol

The protobuf-generated package `pkg/rpc/scheduler` is not part of the sources at hand;
the messages carry the fields the specification names. -/

/-- Modelled from the spec: the `SizeScope` classification of a registration result
("tiny/small/normal/unknown").  The generated enum is missing from the sources, so a
value is its enum number together with its string form. -/
structure SizeScope where
  number : Int
  name : String
deriving DecidableEq, Repr

/-- Modelled from the spec: `SizeScope.String()`, "the scope's string form". -/
def SizeScope.String (s : SizeScope) : String := s.name

/-- Modelled from the spec: Task Registration Request, "identifies the requesting peer
and the task it wants to join". -/
structure PeerTaskRequest where
  Url : String
  PeerId : String
deriving DecidableEq, Repr

/-- Modelled from the spec: Registration Result, "carries a `SizeScope` classification". -/
structure RegisterResult where
  TaskId : String
  SizeScope : SizeScope
deriving DecidableEq, Repr

/-- Modelled from the spec: Peer Result, "success flag, bytes transferred, elapsed cost".
Traffic and cost are unsigned quantities. -/
structure PeerResult where
  TaskId : String
  PeerId : String
  Success : Bool
  Traffic : Nat
  Cost : Nat
deriving DecidableEq, Repr

/-- Modelled from the spec: Peer Target, "identifies a (peer, task) pair". -/
structure PeerTarget where
  TaskId : String
  PeerId : String
deriving DecidableEq, Repr

/-- Modelled from the spec: Piece Result, one inbound frame of a streaming session. -/
structure PieceResult where
  TaskId : String
  SrcPid : String
  PieceNum : Int
  Success : Bool
deriving DecidableEq, Repr

/-- The message `empty.Empty`. -/
structure Empty where
deriving DecidableEq, Repr

/-! ## Transport: addresses, peers, contexts, streams -/

/-- A non-nil `net.Addr`: its network name and its string form. -/
structure Addr where
  network : String
  str : String
deriving DecidableEq, Repr

/-- The struct `peer.Peer`; the interface-typed field `Addr` may be `nil` (`none`). -/
structure peer.Peer where
  Addr : Option Addr
deriving DecidableEq, Repr

/-- A `context.Context`, as far as the gateway looks into it: the value stored under the
peer key, if any, and the name of the call it belongs to.  The stored value is a pointer
`*peer.Peer`, which may itself be `nil`: `none` is a context without peer value,
`some none` one in which a `nil` pointer was stored. -/
structure Context where
  peer : Option (Option peer.Peer)
  method : String
deriving DecidableEq, Repr

/-- The Go function `peer.FromContext`: the stored pointer and whether a value was stored
(`p, ok = ctx.Value(peerKey).(*Peer)`). -/
def peer.FromContext (ctx : Context) : Option peer.Peer × Bool :=
  match ctx.peer with
  | some p => (p, true)
  | none => (none, false)

/-- A `scheduler.Scheduler_ReportPieceResultServer`: the session with its context and the
piece results the peer pushes on it, in the peer's order. -/
structure Stream where
  ctx : Context
  inbound : List PieceResult
deriving DecidableEq, Repr

/-- The method `stream.Context()`. -/
def Stream.Context (s : Stream) : Context := s.ctx

/-! ## The metrics sink -/

/-- Modelled from the spec: the Metrics Sink of package `scheduler/metrics`, which is
missing from the sources: plain counters, the labeled counter
`registrations_by_size_scope[label]`, the gauge of concurrent sessions, the cumulative
traffic counter and the distribution of download costs (the list of the observations
made, oldest first).  The sink keeps the numbers it is handed exactly. -/
structure Metrics where
  RegisterPeerTaskCount : Nat
  RegisterPeerTaskFailureCount : Nat
  PeerTaskCounter : String → Nat
  ConcurrentScheduleGauge : Int
  DownloadCount : Nat
  DownloadFailureCount : Nat
  P2PTraffic : Nat
  PeerTaskDownloadDuration : List Nat

/-- One update of the metrics sink. -/
inductive MetricOp where
  | RegisterPeerTaskCountInc
  | RegisterPeerTaskFailureCountInc
  | PeerTaskCounterInc (label : String)
  | ConcurrentScheduleGaugeInc
  | ConcurrentScheduleGaugeDec
  | DownloadCountInc
  | DownloadFailureCountInc
  | P2PTrafficAdd (v : Nat)
  | PeerTaskDownloadDurationObserve (v : Nat)
deriving DecidableEq, Repr

/-- Modelled from the spec: what an update does to the sink.  `Inc` adds one, `Dec`
subtracts one, `Add` adds its argument, `Observe` records one observation, and the
labeled counter changes at the given label only. -/
def Metrics.apply (m : Metrics) : MetricOp → Metrics
  | .RegisterPeerTaskCountInc =>
      { m with RegisterPeerTaskCount := m.RegisterPeerTaskCount + 1 }
  | .RegisterPeerTaskFailureCountInc =>
      { m with RegisterPeerTaskFailureCount := m.RegisterPeerTaskFailureCount + 1 }
  | .PeerTaskCounterInc label =>
      { m with PeerTaskCounter := fun l =>
          if l = label then m.PeerTaskCounter l + 1 else m.PeerTaskCounter l }
  | .ConcurrentScheduleGaugeInc =>
      { m with ConcurrentScheduleGauge := m.ConcurrentScheduleGauge + 1 }
  | .ConcurrentScheduleGaugeDec =>
      { m with ConcurrentScheduleGauge := m.ConcurrentScheduleGauge - 1 }
  | .DownloadCountInc =>
      { m with DownloadCount := m.DownloadCount + 1 }
  | .DownloadFailureCountInc =>
      { m with DownloadFailureCount := m.DownloadFailureCount + 1 }
  | .P2PTrafficAdd v =>
      { m with P2PTraffic := m.P2PTraffic + v }
  | .PeerTaskDownloadDurationObserve v =>
      { m with PeerTaskDownloadDuration := m.PeerTaskDownloadDuration ++ [v] }

/-- The number of binary digits of `x`, found with at most `fuel` halvings. -/
def bitLengthAux : Nat → Nat → Nat
  | 0, _ => 0
  | fuel + 1, x => if x = 0 then 0 else bitLengthAux fuel (x / 2) + 1

/-- The number of binary digits of `x` (0 for 0). -/
def bitLength (x : Nat) : Nat := bitLengthAux x x

/-- The Go conversion `float64(x)` of an unsigned integer, given as the number the
resulting double stands for.  A double has a significand of 53 binary digits: an integer
up to 2^53 is kept as it is; a larger one loses its lowest `e` digits, where `e` is its
length minus 53, and is rounded to the nearest multiple of 2^e, a tie going to the even
significand.  The integer fields converted here are at most 64 bits wide, so the
conversion never overflows. -/
def float64 (x : Nat) : Nat :=
  if x ≤ 2 ^ 53 then x
  else
    let e := bitLength x - 53
    let q := x / 2 ^ e
    let r := x % 2 ^ e
    let half := 2 ^ (e - 1)
    let q1 := if r > half ∨ (r = half ∧ q % 2 = 1) then q + 1 else q
    q1 * 2 ^ e

/-! ## The world and the effects of a call -/

/-- An invocation of one operation of the scheduling capability, with its arguments. -/
inductive Call where
  | RegisterPeerTask (ctx : Context) (req : PeerTaskRequest)
  | ReportPieceResult (ctx : Context) (stream : Stream)
  | ReportPeerResult (ctx : Context) (req : PeerResult)
  | LeaveTask (ctx : Context) (pt : PeerTarget)
deriving DecidableEq, Repr

/-- An effect the gateway performs: an update of the sink, a log line (its format and
its argument), or entering an operation of the scheduling capability (recorded with the value the gauge of concurrent
sessions has at that moment). -/
inductive Event where
  | metric (op : MetricOp)
  | log (format : String) (arg : String)
  | call (c : Call) (gauge : Int)
deriving DecidableEq, Repr

/-- The state a call runs in: the metrics sink, the private state of the scheduling
capability, and the effects performed so far (oldest first). -/
structure World (σ : Type) where
  metrics : Metrics
  sched : σ
  trace : List Event

/-- A Go computation: from a world to an outcome and the world it leaves behind. -/
def Go (σ α : Type) : Type := World σ → Outcome α × World σ

/-- Return a value without any effect. -/
def Go.pure {σ α : Type} (a : α) : Go σ α := fun w => (.ret a, w)

/-- Sequencing: a panic of the first computation skips the rest. -/
def Go.bind {σ α β : Type} (m : Go σ α) (f : α → Go σ β) : Go σ β := fun w =>
  match m w with
  | (.ret a, w1) => f a w1
  | (.panic msg, w1) => (.panic msg, w1)

instance {σ : Type} : Monad (Go σ) where
  pure := Go.pure
  bind := Go.bind

/-- A runtime panic. -/
def Go.panic {σ α : Type} (msg : String) : Go σ α := fun w => (.panic msg, w)

/-- Dereference a pointer: `nil` panics. -/
def Go.deref {σ α : Type} : Option α → Go σ α
  | some a => Go.pure a
  | none => Go.panic nilDereference

/-- The statement `defer d` followed by `body`: `d` runs when `body` ends, whether it
returns or panics, and the outcome of `body` stands unless `d` itself panics. -/
def Go.withDefer {σ α : Type} (d : Go σ Unit) (body : Go σ α) : Go σ α := fun w =>
  match body w with
  | (out, w1) =>
    match d w1 with
    | (.ret _, w2) => (out, w2)
    | (.panic msg, w2) => (.panic msg, w2)

/-- Perform one update of the metrics sink. -/
def Go.metric {σ : Type} (op : MetricOp) : Go σ Unit := fun w =>
  (.ret (), { w with metrics := w.metrics.apply op, trace := w.trace ++ [Event.metric op] })

/-- Enter an operation of the scheduling capability, which runs on its private state. -/
def Go.invoke {σ α : Type} (c : Call) (f : σ → Outcome α × σ) : Go σ α := fun w =>
  match f w.sched with
  | (out, s1) =>
    (out, { w with sched := s1,
                   trace := w.trace ++ [Event.call c w.metrics.ConcurrentScheduleGauge] })

/-- The call `logger.Infof("start report piece from: %s", peerAddr)` and its like. -/
def logger.Infof {σ : Type} (format : String) (arg : String) : Go σ Unit := fun w =>
  (.ret (), { w with trace := w.trace ++ [Event.log format arg] })

/-- The method `String()` of the interface `net.Addr`: calling it on `nil` panics. -/
def Addr.String {σ : Type} : Option Addr → Go σ String
  | some a => Go.pure a.str
  | none => Go.panic nilDereference

/-! ### The metrics of package `scheduler/metrics` -/

def metrics.RegisterPeerTaskCount.Inc {σ : Type} : Go σ Unit :=
  Go.metric .RegisterPeerTaskCountInc

def metrics.RegisterPeerTaskFailureCount.Inc {σ : Type} : Go σ Unit :=
  Go.metric .RegisterPeerTaskFailureCountInc

/-- A child of the labeled counter, as returned by `WithLabelValues`. -/
structure metrics.CounterChild where
  label : String

def metrics.PeerTaskCounter.WithLabelValues (label : String) : metrics.CounterChild :=
  ⟨label⟩

def metrics.CounterChild.Inc {σ : Type} (c : metrics.CounterChild) : Go σ Unit :=
  Go.metric (.PeerTaskCounterInc c.label)

def metrics.ConcurrentScheduleGauge.Inc {σ : Type} : Go σ Unit :=
  Go.metric .ConcurrentScheduleGaugeInc

def metrics.ConcurrentScheduleGauge.Dec {σ : Type} : Go σ Unit :=
  Go.metric .ConcurrentScheduleGaugeDec

def metrics.DownloadCount.Inc {σ : Type} : Go σ Unit :=
  Go.metric .DownloadCountInc

def metrics.DownloadFailureCount.Inc {σ : Type} : Go σ Unit :=
  Go.metric .DownloadFailureCountInc

def metrics.P2PTraffic.Add {σ : Type} (v : Nat) : Go σ Unit :=
  Go.metric (.P2PTrafficAdd v)

def metrics.PeerTaskDownloadDuration.Observe {σ : Type} (v : Nat) : Go σ Unit :=
  Go.metric (.PeerTaskDownloadDurationObserve v)

/-! ## `pkg/rpc/scheduler/server/server.go` -/

/-- The interface `SchedulerServer`: the four operations of the scheduling capability.
Each runs on the capability's private state `σ` and returns or panics; the capability
has no access to the gateway's metrics sink, and pointers it returns may be `nil`. -/
structure SchedulerServer (σ : Type) where
  RegisterPeerTask : Context → PeerTaskRequest → σ →
    Outcome (Option RegisterResult × GoError) × σ
  ReportPieceResult : Context → Stream → σ → Outcome GoError × σ
  ReportPeerResult : Context → PeerResult → σ → Outcome GoError × σ
  LeaveTask : Context → PeerTarget → σ → Outcome GoError × σ

/-- The struct `proxy`. -/
structure proxy (σ : Type) where
  server : SchedulerServer σ

/-- The method `proxy.RegisterPeerTask`.  The request is the message decoded by the
transport and is only passed on; the result `resp` is dereferenced on the success path. -/
def proxy.RegisterPeerTask {σ : Type} (p : proxy σ) (ctx : Context) (req : PeerTaskRequest) :
    Go σ (Option RegisterResult × GoError) := do
  metrics.RegisterPeerTaskCount.Inc
  let (resp, err) ← Go.invoke (.RegisterPeerTask ctx req) (p.server.RegisterPeerTask ctx req)
  if err ≠ none then
    metrics.RegisterPeerTaskFailureCount.Inc
  else
    let r ← Go.deref resp
    (metrics.PeerTaskCounter.WithLabelValues r.SizeScope.String).Inc
  return (resp, err)

/-- The method `proxy.ReportPieceResult`. -/
def proxy.ReportPieceResult {σ : Type} (p : proxy σ) (stream : Stream) : Go σ GoError := do
  metrics.ConcurrentScheduleGauge.Inc
  Go.withDefer metrics.ConcurrentScheduleGauge.Dec do
    let ctx := stream.Context
    let mut peerAddr := "unknown"
    let (pe, ok) := peer.FromContext ctx
    if ok then
      let pe ← Go.deref pe
      peerAddr ← Addr.String pe.Addr
    logger.Infof "start report piece from: %s" peerAddr
    Go.invoke (.ReportPieceResult ctx stream) (p.server.ReportPieceResult ctx stream)

/-- The method `proxy.ReportPeerResult`. -/
def proxy.ReportPeerResult {σ : Type} (p : proxy σ) (ctx : Context) (req : PeerResult) :
    Go σ (Option Empty × GoError) := do
  metrics.DownloadCount.Inc
  if req.Success then
    metrics.P2PTraffic.Add (float64 req.Traffic)
    metrics.PeerTaskDownloadDuration.Observe (float64 req.Cost)
  else
    metrics.DownloadFailureCount.Inc
  let ack := some Empty.mk
  let err ← Go.invoke (.ReportPeerResult ctx req) (p.server.ReportPeerResult ctx req)
  return (ack, err)

/-- The method `proxy.LeaveTask`. -/
def proxy.LeaveTask {σ : Type} (p : proxy σ) (ctx : Context) (pt : PeerTarget) :
    Go σ (Option Empty × GoError) := do
  let ack := some Empty.mk
  let err ← Go.invoke (.LeaveTask ctx pt) (p.server.LeaveTask ctx pt)
  return (ack, err)

/-- The events a call added to the trace of the world it started in. -/
def World.eventsSince {σ : Type} (w0 w1 : World σ) : List Event :=
  w1.trace.drop w0.trace.length

/-- The updates of the metrics sink among some events, in order. -/
def metricOps : List Event → List MetricOp
  | [] => []
  | .metric op :: es => op :: metricOps es
  | _ :: es => metricOps es

/-- The invocations of the scheduling capability among some events, in order. -/
def capabilityCalls : List Event → List Call
  | [] => []
  | .call c _ :: es => c :: capabilityCalls es
  | _ :: es => capabilityCalls es

/-- The value the gauge of concurrent sessions had at each invocation of the scheduling
capability among some events, in order. -/
def callGauges : List Event → List Int
  | [] => []
  | .call _ g :: es => g :: callGauges es
  | _ :: es => callGauges es

/-! ## `pkg/math/math.go`

Go's `int`, `int32` and `int64` values are integers within the range of their width; the
helpers only compare and return their arguments, so no arithmetic can overflow. -/

/-- The function `MaxInt`. -/
def math.MaxInt (a b : Int) : Int :=
  if a < b then a else b

/-- The function `MaxInt32`. -/
def math.MaxInt32 (a b : Int) : Int :=
  if a > b then a else b

/-- The function `MaxInt64`. -/
def math.MaxInt64 (a b : Int) : Int :=
  if a > b then a else b

/-- The function `MinInt`. -/
def math.MinInt (a b : Int) : Int :=
  if a < b then a else b

/-- The function `MinInt32`. -/
def math.MinInt32 (a b : Int) : Int :=
  if a < b then a else b

/-- The function `MinInt64`. -/
def math.MinInt64 (a b : Int) : Int :=
  if a < b then a else b

/-! ## `pkg/objectstorage/oss.go`

The Aliyun SDK is an external collaborator: a client hands out bucket handles, and the
requests of a handle run against the remote store, whose state has type `τ`. -/

/-- An `io.Reader`: the bytes it yields. -/
structure objectstorage.Reader where
  data : String
deriving DecidableEq, Repr

/-- An `io.ReadCloser`: the bytes it yields. -/
structure objectstorage.ReadCloser where
  data : String
deriving DecidableEq, Repr

/-- The SDK type `aliyunoss.Option` (a request option), such as the one `aliyunoss.Meta(key, value)` builds. -/
structure aliyunoss.RequestOption where
  key : String
  value : String
deriving DecidableEq, Repr

/-- The SDK function `aliyunoss.Meta`. -/
def aliyunoss.Meta (key value : String) : aliyunoss.RequestOption := ⟨key, value⟩

/-- The SDK type `aliyunoss.Bucket`, a handle on one bucket: the requests the wrapper
sends through it, each keyed by an object key. -/
structure aliyunoss.Bucket (τ : Type) where
  GetObject : String → τ → (Option objectstorage.ReadCloser × GoError) × τ
  PutObject : String → objectstorage.Reader → aliyunoss.RequestOption → τ → GoError × τ
  DeleteObject : String → τ → GoError × τ

/-- The SDK type `aliyunoss.Client`: `Bucket(name)` yields a handle or an error. -/
structure aliyunoss.Client (τ : Type) where
  Bucket : String → Option (aliyunoss.Bucket τ) × GoError

/-- The struct `oss`. -/
structure objectstorage.oss (τ : Type) where
  client : aliyunoss.Client τ

/-- The method `oss.GetOject`. -/
def objectstorage.oss.GetOject {τ : Type} (o : objectstorage.oss τ) (_ctx : Context)
    (bucketName _objectKey : String) (s : τ) :
    Outcome (Option objectstorage.ReadCloser × GoError) × τ :=
  match o.client.Bucket bucketName with
  | (bucket, err) =>
    if err ≠ none then
      (.ret (none, err), s)
    else
      match bucket with
      | none => (.panic nilDereference, s)
      | some bucket =>
        match bucket.GetObject bucketName s with
        | (r, s1) => (.ret r, s1)

/-- The method `oss.CreateObject`; the constant `MetaDigest` is declared elsewhere in the
package and is taken as a parameter. -/
def objectstorage.oss.CreateObject {τ : Type} (MetaDigest : String)
    (o : objectstorage.oss τ) (_ctx : Context)
    (bucketName objectKey digest : String) (reader : objectstorage.Reader) (s : τ) :
    Outcome GoError × τ :=
  match o.client.Bucket bucketName with
  | (bucket, err) =>
    if err ≠ none then
      (.ret err, s)
    else
      let meta := aliyunoss.Meta MetaDigest digest
      match bucket with
      | none => (.panic nilDereference, s)
      | some bucket =>
        match bucket.PutObject objectKey reader meta s with
        | (r, s1) => (.ret r, s1)

/-- The method `oss.DeleteObject`. -/
def objectstorage.oss.DeleteObject {τ : Type} (o : objectstorage.oss τ) (_ctx : Context)
    (bucketName objectKey : String) (s : τ) : Outcome GoError × τ :=
  match o.client.Bucket bucketName with
  | (bucket, err) =>
    if err ≠ none then
      (.ret err, s)
    else
      match bucket with
      | none => (.panic nilDereference, s)
      | some bucket =>
        match bucket.DeleteObject objectKey s with
        | (r, s1) => (.ret r, s1)

/-! ## Test doubles

Concrete collaborators on which the code is evaluated. -/

/-- A sink in which nothing has been counted yet. -/
def Metrics.zero : Metrics where
  RegisterPeerTaskCount := 0
  RegisterPeerTaskFailureCount := 0
  PeerTaskCounter := fun _ => 0
  ConcurrentScheduleGauge := 0
  DownloadCount := 0
  DownloadFailureCount := 0
  P2PTraffic := 0
  PeerTaskDownloadDuration := []

/-- A stub capability: its state counts the invocations, registration is answered with
`reg` and every other operation with `err`. -/
def stubServer (reg : Option RegisterResult × GoError) (err : GoError) :
    SchedulerServer Nat where
  RegisterPeerTask := fun _ _ n => (.ret reg, n + 1)
  ReportPieceResult := fun _ _ n => (.ret err, n + 1)
  ReportPeerResult := fun _ _ n => (.ret err, n + 1)
  LeaveTask := fun _ _ n => (.ret err, n + 1)

/-- The gateway in front of a stub capability. -/
def stubProxy (reg : Option RegisterResult × GoError) (err : GoError) : proxy Nat :=
  ⟨stubServer reg err⟩

/-- A fresh world: nothing counted, nothing invoked, nothing traced. -/
def World.fresh : World Nat := ⟨Metrics.zero, 0, []⟩

/-- A context in which the transport stored no peer. -/
def ctxNoPeer : Context := ⟨none, "scheduler.Scheduler"⟩

/-- A context whose peer has no address. -/
def ctxNilAddr : Context := ⟨some (some ⟨none⟩), "scheduler.Scheduler"⟩

/-- A context in which a `nil` peer pointer was stored. -/
def ctxNilPeer : Context := ⟨some none, "scheduler.Scheduler"⟩

/-- A context whose peer has an address. -/
def ctxWithAddr : Context :=
  ⟨some (some ⟨some ⟨"tcp", "10.0.0.7:65001"⟩⟩), "scheduler.Scheduler"⟩

/-- The error of the stub capability. -/
def errUnavailable : Error := ⟨"scheduler unavailable"⟩

/-- A registration result of scope `NORMAL`. -/
def normalResult : RegisterResult := ⟨"task-1", ⟨0, "NORMAL"⟩⟩

/-- A registration request. -/
def joinRequest : PeerTaskRequest := ⟨"https://example.com/blob", "peer-1"⟩

/-- A Peer Result with traffic 1000 and cost 50 and the given success flag. -/
def peerResult (success : Bool) : PeerResult := ⟨"task-1", "peer-1", success, 1000, 50⟩

/-- A successful Peer Result whose traffic is 2^53 + 1 bytes, with cost 50. -/
def hugeResult : PeerResult := ⟨"task-1", "peer-1", true, 9007199254740993, 50⟩

/-- A Peer Target. -/
def leaveTarget : PeerTarget := ⟨"task-1", "peer-1"⟩

/-- A session of a peer with an address, with two piece results pending. -/
def session : Stream :=
  ⟨ctxWithAddr, [⟨"task-1", "peer-1", 0, true⟩, ⟨"task-1", "peer-1", 1, false⟩]⟩

/-- An in-memory object store: the objects as (bucket, key, data). -/
abbrev MemStore := List (String × String × String)

/-- A bucket handle on the in-memory store. -/
def memBucket (name : String) : aliyunoss.Bucket MemStore where
  GetObject := fun key s =>
    match s.find? (fun e => e.1 == name && e.2.1 == key) with
    | some e => ((some ⟨e.2.2⟩, none), s)
    | none => ((none, some ⟨"NoSuchKey"⟩), s)
  PutObject := fun key r _ s =>
    (none, (name, key, r.data) :: s.filter (fun e => !(e.1 == name && e.2.1 == key)))
  DeleteObject := fun key s =>
    (none, s.filter (fun e => !(e.1 == name && e.2.1 == key)))

/-- A client of the in-memory store; the empty bucket name is refused. -/
def memClient : aliyunoss.Client MemStore where
  Bucket := fun name =>
    if name = "" then (none, some ⟨"bucket name is invalid"⟩) else (some (memBucket name), none)

/-- A store holding the one object `cat.png` in bucket `images`. -/
def oneObject : MemStore := [("images", "cat.png", "MEOW")]

/-! ## Registration -/

/-- C1: when the capability's register operation returns a result and no error,
`proxy.RegisterPeerTask` adds exactly 1 to `RegisterPeerTaskCount`, adds exactly 1 to
`PeerTaskCounter` at the label that is the string form of the returned `SizeScope`,
changes `PeerTaskCounter` at no other label, and leaves `RegisterPeerTaskFailureCount`
as it was; its updates of the sink are exactly these two. -/
theorem RegisterPeerTask_success_metrics {σ : Type} (p : proxy σ) (ctx : Context)
    (req : PeerTaskRequest) (w : World σ) (resp : RegisterResult) (s1 : σ)
    (h : p.server.RegisterPeerTask ctx req w.sched = (.ret (some resp, none), s1)) :
    ((p.RegisterPeerTask ctx req w).2.metrics.RegisterPeerTaskCount
        = w.metrics.RegisterPeerTaskCount + 1) ∧
    ((p.RegisterPeerTask ctx req w).2.metrics.PeerTaskCounter resp.SizeScope.String
        = w.metrics.PeerTaskCounter resp.SizeScope.String + 1) ∧
    (∀ l : String, l ≠ resp.SizeScope.String →
      (p.RegisterPeerTask ctx req w).2.metrics.PeerTaskCounter l
        = w.metrics.PeerTaskCounter l) ∧
    ((p.RegisterPeerTask ctx req w).2.metrics.RegisterPeerTaskFailureCount
        = w.metrics.RegisterPeerTaskFailureCount) ∧
    metricOps (w.eventsSince (p.RegisterPeerTask ctx req w).2)
        = [.RegisterPeerTaskCountInc, .PeerTaskCounterInc resp.SizeScope.String] := by
  simp [proxy.RegisterPeerTask, bind, Go.bind, Go.invoke, h, pure, Go.pure, Go.metric,
    Go.deref, Metrics.apply, World.eventsSince, metricOps,
    metrics.RegisterPeerTaskCount.Inc, metrics.CounterChild.Inc,
    metrics.PeerTaskCounter.WithLabelValues]

/-- C1, on a stub capability that registers with scope `NORMAL`: one registration
attempted, one counted under the label `NORMAL`, none under `TINY`, none failed. -/
theorem RegisterPeerTask_success_metrics_witness :
    (stubProxy (some normalResult, none) none).server.RegisterPeerTask ctxWithAddr joinRequest
        World.fresh.sched = (.ret (some normalResult, none), 1) ∧
    ((stubProxy (some normalResult, none) none).RegisterPeerTask ctxWithAddr joinRequest
        World.fresh).2.metrics.RegisterPeerTaskCount = 1 ∧
    ((stubProxy (some normalResult, none) none).RegisterPeerTask ctxWithAddr joinRequest
        World.fresh).2.metrics.PeerTaskCounter "NORMAL" = 1 ∧
    ((stubProxy (some normalResult, none) none).RegisterPeerTask ctxWithAddr joinRequest
        World.fresh).2.metrics.PeerTaskCounter "TINY" = 0 ∧
    ((stubProxy (some normalResult, none) none).RegisterPeerTask ctxWithAddr joinRequest
        World.fresh).2.metrics.RegisterPeerTaskFailureCount = 0 :=
  have h := RegisterPeerTask_success_metrics (stubProxy (some normalResult, none) none)
    ctxWithAddr joinRequest World.fresh normalResult 1 rfl
  ⟨rfl, h.1, h.2.1, h.2.2.1 "TINY" (by decide), h.2.2.2.1⟩

/-- C6: when the capability's register operation returns an error, whatever result
comes with it, `proxy.RegisterPeerTask` adds exactly 1 to `RegisterPeerTaskCount` and
exactly 1 to `RegisterPeerTaskFailureCount` and leaves `PeerTaskCounter` unchanged at
every label; its updates of the sink are exactly these two. -/
theorem RegisterPeerTask_failure_metrics {σ : Type} (p : proxy σ) (ctx : Context)
    (req : PeerTaskRequest) (w : World σ) (resp : Option RegisterResult) (err : Error)
    (s1 : σ)
    (h : p.server.RegisterPeerTask ctx req w.sched = (.ret (resp, some err), s1)) :
    ((p.RegisterPeerTask ctx req w).2.metrics.RegisterPeerTaskCount
        = w.metrics.RegisterPeerTaskCount + 1) ∧
    ((p.RegisterPeerTask ctx req w).2.metrics.RegisterPeerTaskFailureCount
        = w.metrics.RegisterPeerTaskFailureCount + 1) ∧
    ((p.RegisterPeerTask ctx req w).2.metrics.PeerTaskCounter
        = w.metrics.PeerTaskCounter) ∧
    metricOps (w.eventsSince (p.RegisterPeerTask ctx req w).2)
        = [.RegisterPeerTaskCountInc, .RegisterPeerTaskFailureCountInc] := by
  simp [proxy.RegisterPeerTask, bind, Go.bind, Go.invoke, h, pure, Go.pure, Go.metric,
    Metrics.apply, World.eventsSince, metricOps,
    metrics.RegisterPeerTaskCount.Inc, metrics.RegisterPeerTaskFailureCount.Inc]

/-- C6, on a stub capability that fails registration and still hands back a result of
scope `NORMAL`: one registration attempted, one failed, nothing counted under any label. -/
theorem RegisterPeerTask_failure_metrics_witness :
    (stubProxy (some normalResult, some errUnavailable) none).server.RegisterPeerTask
        ctxWithAddr joinRequest World.fresh.sched
        = (.ret (some normalResult, some errUnavailable), 1) ∧
    ((stubProxy (some normalResult, some errUnavailable) none).RegisterPeerTask ctxWithAddr
        joinRequest World.fresh).2.metrics.RegisterPeerTaskCount = 1 ∧
    ((stubProxy (some normalResult, some errUnavailable) none).RegisterPeerTask ctxWithAddr
        joinRequest World.fresh).2.metrics.RegisterPeerTaskFailureCount = 1 ∧
    ((stubProxy (some normalResult, some errUnavailable) none).RegisterPeerTask ctxWithAddr
        joinRequest World.fresh).2.metrics.PeerTaskCounter = fun _ => 0 :=
  have h := RegisterPeerTask_failure_metrics
    (stubProxy (some normalResult, some errUnavailable) none)
    ctxWithAddr joinRequest World.fresh (some normalResult) errUnavailable 1 rfl
  ⟨rfl, h.1, h.2.1, h.2.2.1⟩

/-! ## Peer results -/

/-- An integer up to 2^53 is a double: the conversion keeps it. -/
theorem float64_of_le (x : Nat) (h : x ≤ 2 ^ 53) : float64 x = x := by
  unfold float64
  exact if_pos h

/-- C3 (as stated, it fails): for a successful Peer Result whose reported traffic is
2^53 + 1, `proxy.ReportPeerResult` hands `float64(2^53 + 1)`, which is 2^53, to
`P2PTraffic`: the counter grows by 2^53 and not by the reported traffic. -/
theorem ReportPeerResult_traffic_rounded :
    hugeResult.Success = true ∧
    hugeResult.Traffic = 2 ^ 53 + 1 ∧
    float64 hugeResult.Traffic = 2 ^ 53 ∧
    ((stubProxy (none, none) none).ReportPeerResult ctxWithAddr hugeResult
        World.fresh).2.metrics.P2PTraffic = World.fresh.metrics.P2PTraffic + 2 ^ 53 ∧
    ((stubProxy (none, none) none).ReportPeerResult ctxWithAddr hugeResult
        World.fresh).2.metrics.P2PTraffic
        ≠ World.fresh.metrics.P2PTraffic + hugeResult.Traffic := by
  have hf : float64 9007199254740993 = 9007199254740992 := by decide
  simp [stubProxy, stubServer, proxy.ReportPeerResult, bind, Go.bind, Go.invoke, pure,
    Go.pure, Go.metric, Metrics.apply, Metrics.zero, World.fresh, hugeResult, hf,
    metrics.DownloadCount.Inc, metrics.P2PTraffic.Add,
    metrics.PeerTaskDownloadDuration.Observe]

/-- C3 (amended): for a Peer Result whose success flag is true, with reported traffic
`t` and cost `c`, whatever the capability's record operation does,
`proxy.ReportPeerResult` adds exactly 1 to `DownloadCount`, adds exactly `float64(t)`
to `P2PTraffic`, which is exactly `t` whenever `t` is at most 2^53, records exactly one
observation, `float64(c)`, in `PeerTaskDownloadDuration`, which is `c` whenever `c` is
at most 2^53, and leaves `DownloadFailureCount` as it was; its updates of the sink are
exactly these three. -/
theorem ReportPeerResult_success_metrics {σ : Type} (p : proxy σ) (ctx : Context)
    (req : PeerResult) (w : World σ) (hs : req.Success = true) :
    ((p.ReportPeerResult ctx req w).2.metrics.DownloadCount
        = w.metrics.DownloadCount + 1) ∧
    ((p.ReportPeerResult ctx req w).2.metrics.P2PTraffic
        = w.metrics.P2PTraffic + float64 req.Traffic) ∧
    (req.Traffic ≤ 2 ^ 53 →
      (p.ReportPeerResult ctx req w).2.metrics.P2PTraffic
        = w.metrics.P2PTraffic + req.Traffic) ∧
    ((p.ReportPeerResult ctx req w).2.metrics.PeerTaskDownloadDuration
        = w.metrics.PeerTaskDownloadDuration ++ [float64 req.Cost]) ∧
    (req.Cost ≤ 2 ^ 53 →
      (p.ReportPeerResult ctx req w).2.metrics.PeerTaskDownloadDuration
        = w.metrics.PeerTaskDownloadDuration ++ [req.Cost]) ∧
    ((p.ReportPeerResult ctx req w).2.metrics.DownloadFailureCount
        = w.metrics.DownloadFailureCount) ∧
    metricOps (w.eventsSince (p.ReportPeerResult ctx req w).2)
        = [.DownloadCountInc, .P2PTrafficAdd (float64 req.Traffic),
           .PeerTaskDownloadDurationObserve (float64 req.Cost)] := by
  have key :
      ((p.ReportPeerResult ctx req w).2.metrics.DownloadCount
          = w.metrics.DownloadCount + 1) ∧
      ((p.ReportPeerResult ctx req w).2.metrics.P2PTraffic
          = w.metrics.P2PTraffic + float64 req.Traffic) ∧
      ((p.ReportPeerResult ctx req w).2.metrics.PeerTaskDownloadDuration
          = w.metrics.PeerTaskDownloadDuration ++ [float64 req.Cost]) ∧
      ((p.ReportPeerResult ctx req w).2.metrics.DownloadFailureCount
          = w.metrics.DownloadFailureCount) ∧
      metricOps (w.eventsSince (p.ReportPeerResult ctx req w).2)
          = [.DownloadCountInc, .P2PTrafficAdd (float64 req.Traffic),
             .PeerTaskDownloadDurationObserve (float64 req.Cost)] := by
    rcases hc : p.server.ReportPeerResult ctx req w.sched with ⟨out, s1⟩
    cases out <;>
      simp [proxy.ReportPeerResult, bind, Go.bind, Go.invoke, hc, hs, pure, Go.pure,
        Go.metric, Metrics.apply, World.eventsSince, metricOps,
        metrics.DownloadCount.Inc, metrics.P2PTraffic.Add,
        metrics.PeerTaskDownloadDuration.Observe]
  obtain ⟨h1, h2, h3, h4, h5⟩ := key
  refine ⟨h1, h2, ?_, h3, ?_, h4, h5⟩
  · intro ht
    rw [h2, float64_of_le _ ht]
  · intro hcost
    rw [h3, float64_of_le _ hcost]

/-- C3 (amended), for traffic 1000 and cost 50 on a stub capability that rejects the
report: one download completed, 1000 bytes of traffic, the single observation 50, no
failure. -/
theorem ReportPeerResult_success_metrics_witness :
    (peerResult true).Success = true ∧
    ((stubProxy (none, none) (some errUnavailable)).ReportPeerResult ctxWithAddr
        (peerResult true) World.fresh).1 = .ret (some Empty.mk, some errUnavailable) ∧
    ((stubProxy (none, none) (some errUnavailable)).ReportPeerResult ctxWithAddr
        (peerResult true) World.fresh).2.metrics.DownloadCount = 1 ∧
    ((stubProxy (none, none) (some errUnavailable)).ReportPeerResult ctxWithAddr
        (peerResult true) World.fresh).2.metrics.P2PTraffic = 1000 ∧
    ((stubProxy (none, none) (some errUnavailable)).ReportPeerResult ctxWithAddr
        (peerResult true) World.fresh).2.metrics.PeerTaskDownloadDuration = [50] ∧
    ((stubProxy (none, none) (some errUnavailable)).ReportPeerResult ctxWithAddr
        (peerResult true) World.fresh).2.metrics.DownloadFailureCount = 0 :=
  have h := ReportPeerResult_success_metrics (stubProxy (none, none) (some errUnavailable))
    ctxWithAddr (peerResult true) World.fresh rfl
  ⟨rfl, rfl, h.1, h.2.2.1 (by decide), h.2.2.2.2.1 (by decide), h.2.2.2.2.2.1⟩

/-- C7: for a Peer Result whose success flag is false, whatever the capability's record
operation does and whatever traffic and cost the result carries,
`proxy.ReportPeerResult` adds exactly 1 to `DownloadCount` and exactly 1 to
`DownloadFailureCount`, leaves `P2PTraffic` as it was and records no observation in
`PeerTaskDownloadDuration`; its updates of the sink are exactly these two. -/
theorem ReportPeerResult_failure_metrics {σ : Type} (p : proxy σ) (ctx : Context)
    (req : PeerResult) (w : World σ) (hs : req.Success = false) :
    ((p.ReportPeerResult ctx req w).2.metrics.DownloadCount
        = w.metrics.DownloadCount + 1) ∧
    ((p.ReportPeerResult ctx req w).2.metrics.DownloadFailureCount
        = w.metrics.DownloadFailureCount + 1) ∧
    ((p.ReportPeerResult ctx req w).2.metrics.P2PTraffic = w.metrics.P2PTraffic) ∧
    ((p.ReportPeerResult ctx req w).2.metrics.PeerTaskDownloadDuration
        = w.metrics.PeerTaskDownloadDuration) ∧
    metricOps (w.eventsSince (p.ReportPeerResult ctx req w).2)
        = [.DownloadCountInc, .DownloadFailureCountInc] := by
  rcases hc : p.server.ReportPeerResult ctx req w.sched with ⟨out, s1⟩
  cases out <;>
    simp [proxy.ReportPeerResult, bind, Go.bind, Go.invoke, hc, hs, pure, Go.pure,
      Go.metric, Metrics.apply, World.eventsSince, metricOps,
      metrics.DownloadCount.Inc, metrics.DownloadFailureCount.Inc]

/-- C7, for a failed Peer Result that carries traffic 1000 and cost 50: one download
completed, one failed, no traffic added, no observation recorded. -/
theorem ReportPeerResult_failure_metrics_witness :
    (peerResult false).Success = false ∧
    ((stubProxy (none, none) none).ReportPeerResult ctxWithAddr (peerResult false)
        World.fresh).2.metrics.DownloadCount = 1 ∧
    ((stubProxy (none, none) none).ReportPeerResult ctxWithAddr (peerResult false)
        World.fresh).2.metrics.DownloadFailureCount = 1 ∧
    ((stubProxy (none, none) none).ReportPeerResult ctxWithAddr (peerResult false)
        World.fresh).2.metrics.P2PTraffic = 0 ∧
    ((stubProxy (none, none) none).ReportPeerResult ctxWithAddr (peerResult false)
        World.fresh).2.metrics.PeerTaskDownloadDuration = [] :=
  have h := ReportPeerResult_failure_metrics (stubProxy (none, none) none)
    ctxWithAddr (peerResult false) World.fresh rfl
  ⟨rfl, h.1, h.2.1, h.2.2.1, h.2.2.2.1⟩

/-! ## Leaving a task -/

/-- C10: `proxy.LeaveTask` leaves every metric as it was and performs no update of the
sink at all; it invokes the capability's leave operation and, when that returns,
returns a non-nil empty acknowledgment together with exactly the error (or `nil`) the
capability returned, with no special case of its own. -/
theorem LeaveTask_no_metrics {σ : Type} (p : proxy σ) (ctx : Context) (pt : PeerTarget)
    (w : World σ) :
    (p.LeaveTask ctx pt w).2.metrics = w.metrics ∧
    metricOps (w.eventsSince (p.LeaveTask ctx pt w).2) = [] ∧
    (p.LeaveTask ctx pt w).1
      = Outcome.map (fun err => (some Empty.mk, err)) (p.server.LeaveTask ctx pt w.sched).1 ∧
    (p.LeaveTask ctx pt w).2.sched = (p.server.LeaveTask ctx pt w.sched).2 := by
  rcases hc : p.server.LeaveTask ctx pt w.sched with ⟨out, s1⟩
  cases out <;>
    simp [proxy.LeaveTask, bind, Go.bind, Go.invoke, hc, pure, Go.pure,
      World.eventsSince, metricOps, Outcome.map]

/-! ## Streaming sessions -/

/-- C2: for every streaming session, whatever its context carries and whether the
capability's streaming operation returns success, returns an error or panics,
`proxy.ReportPieceResult` leaves `ConcurrentScheduleGauge` at the value it started
from; its updates of the sink are exactly one increment followed by one decrement of
the gauge, the increment being its first effect and the decrement its last; and the
capability's streaming operation, whenever it is entered, is entered with the gauge
one above the starting value. -/
theorem ReportPieceResult_gauge_balanced {σ : Type} (p : proxy σ) (stream : Stream)
    (w : World σ) :
    ((p.ReportPieceResult stream w).2.metrics.ConcurrentScheduleGauge
        = w.metrics.ConcurrentScheduleGauge) ∧
    metricOps (w.eventsSince (p.ReportPieceResult stream w).2)
        = [.ConcurrentScheduleGaugeInc, .ConcurrentScheduleGaugeDec] ∧
    (w.eventsSince (p.ReportPieceResult stream w).2).head?
        = some (.metric .ConcurrentScheduleGaugeInc) ∧
    (w.eventsSince (p.ReportPieceResult stream w).2).getLast?
        = some (.metric .ConcurrentScheduleGaugeDec) ∧
    callGauges (w.eventsSince (p.ReportPieceResult stream w).2)
        = (capabilityCalls (w.eventsSince (p.ReportPieceResult stream w).2)).map
            (fun _ => w.metrics.ConcurrentScheduleGauge + 1) := by
  rcases hc : p.server.ReportPieceResult stream.Context stream w.sched with ⟨out, s1⟩
  rcases hp : stream.Context.peer with _ | _ | ⟨_ | a⟩ <;> cases out <;>
    simp [proxy.ReportPieceResult, bind, Go.bind, Go.invoke, hc, hp, pure, Go.pure,
      Go.metric, Go.withDefer, Go.deref, Go.panic, Addr.String, logger.Infof,
      peer.FromContext, Metrics.apply, World.eventsSince, metricOps, callGauges,
      capabilityCalls, metrics.ConcurrentScheduleGauge.Inc,
      metrics.ConcurrentScheduleGauge.Dec]

/-! ## Transparent delegation -/

/-- C8 (as stated, it fails): a capability whose register operation returns no result
and no error is invoked, but the gateway does not return its answer unchanged: it
panics on the missing result.  And on a stream in whose context a `nil` peer was stored,
the gateway panics before it reaches the capability's streaming operation, which is
invoked not once but never, although it would have returned `nil`. -/
theorem delegation_fails_on_nil_result_and_nil_peer :
    (((stubProxy (none, none) none).server.RegisterPeerTask ctxNoPeer joinRequest
        World.fresh.sched).1 = .ret (none, none) ∧
      ((stubProxy (none, none) none).RegisterPeerTask ctxNoPeer joinRequest World.fresh).1
        = .panic nilDereference ∧
      ((stubProxy (none, none) none).RegisterPeerTask ctxNoPeer joinRequest World.fresh).1
        ≠ ((stubProxy (none, none) none).server.RegisterPeerTask ctxNoPeer joinRequest
            World.fresh.sched).1) ∧
    (((stubProxy (none, none) none).server.ReportPieceResult ctxNilPeer ⟨ctxNilPeer, []⟩
        World.fresh.sched).1 = .ret none ∧
      ((stubProxy (none, none) none).ReportPieceResult ⟨ctxNilPeer, []⟩ World.fresh).1
        = .panic nilDereference ∧
      capabilityCalls (World.fresh.eventsSince
        ((stubProxy (none, none) none).ReportPieceResult ⟨ctxNilPeer, []⟩ World.fresh).2)
        = []) := by
  simp [stubProxy, stubServer, proxy.RegisterPeerTask, proxy.ReportPieceResult, bind,
    Go.bind, Go.invoke, pure, Go.pure, Go.metric, Go.deref, Go.panic, Go.withDefer,
    peer.FromContext, Stream.Context, ctxNilPeer, World.eventsSince, capabilityCalls,
    metrics.RegisterPeerTaskCount.Inc, metrics.ConcurrentScheduleGauge.Inc,
    metrics.ConcurrentScheduleGauge.Dec, World.fresh]

/-- C8 (amended): the gateway is a transparent delegate, operation by operation.
`RegisterPeerTask` invokes the capability's register operation exactly once, on the
caller's context and request and on the state the capability was in, for every input,
and ends the way that operation ends, returning its result and its error unchanged,
unless the capability returned neither a result nor an error.
`ReportPieceResult`, for a stream whose context carries no peer value or a peer with an
address, invokes the capability's streaming operation exactly once, on the stream
together with the stream's context, and ends the way it ends, returning exactly its
error or `nil`.
`ReportPeerResult` and `LeaveTask`, for every input, invoke the capability's operation
exactly once on the caller's context and message and end the way it ends, returning
exactly its error or `nil` together with a non-nil empty acknowledgment. -/
theorem proxy_transparent_delegate {σ : Type} (p : proxy σ) (w : World σ) (ctx : Context)
    (req : PeerTaskRequest) (stream : Stream) (res : PeerResult) (pt : PeerTarget) :
    (capabilityCalls (w.eventsSince (p.RegisterPeerTask ctx req w).2)
        = [.RegisterPeerTask ctx req] ∧
      (p.RegisterPeerTask ctx req w).2.sched = (p.server.RegisterPeerTask ctx req w.sched).2 ∧
      ((p.server.RegisterPeerTask ctx req w.sched).1 ≠ .ret (none, none) →
        (p.RegisterPeerTask ctx req w).1 = (p.server.RegisterPeerTask ctx req w.sched).1)) ∧
    ((stream.Context.peer = none ∨
        ∃ a : Addr, stream.Context.peer = some (some ⟨some a⟩)) →
      (p.ReportPieceResult stream w).1
        = (p.server.ReportPieceResult stream.Context stream w.sched).1 ∧
      (p.ReportPieceResult stream w).2.sched
        = (p.server.ReportPieceResult stream.Context stream w.sched).2 ∧
      capabilityCalls (w.eventsSince (p.ReportPieceResult stream w).2)
        = [.ReportPieceResult stream.Context stream]) ∧
    ((p.ReportPeerResult ctx res w).1
        = Outcome.map (fun err => (some Empty.mk, err))
            (p.server.ReportPeerResult ctx res w.sched).1 ∧
      (p.ReportPeerResult ctx res w).2.sched = (p.server.ReportPeerResult ctx res w.sched).2 ∧
      capabilityCalls (w.eventsSince (p.ReportPeerResult ctx res w).2)
        = [.ReportPeerResult ctx res]) ∧
    ((p.LeaveTask ctx pt w).1
        = Outcome.map (fun err => (some Empty.mk, err)) (p.server.LeaveTask ctx pt w.sched).1 ∧
      (p.LeaveTask ctx pt w).2.sched = (p.server.LeaveTask ctx pt w.sched).2 ∧
      capabilityCalls (w.eventsSince (p.LeaveTask ctx pt w).2) = [.LeaveTask ctx pt]) := by
  refine ⟨?_, ?_, ?_, ?_⟩
  · rcases hc : p.server.RegisterPeerTask ctx req w.sched with ⟨out, s1⟩
    rcases out with ⟨resp, err⟩ | msg
    · rcases err with _ | e
      · rcases resp with _ | r
        · simp [proxy.RegisterPeerTask, bind, Go.bind, Go.invoke, hc, pure, Go.pure,
            Go.metric, Go.deref, Go.panic, World.eventsSince, capabilityCalls,
            metrics.RegisterPeerTaskCount.Inc]
        · simp [proxy.RegisterPeerTask, bind, Go.bind, Go.invoke, hc, pure, Go.pure,
            Go.metric, Go.deref, World.eventsSince, capabilityCalls,
            metrics.RegisterPeerTaskCount.Inc, metrics.CounterChild.Inc]
      · simp [proxy.RegisterPeerTask, bind, Go.bind, Go.invoke, hc, pure, Go.pure,
          Go.metric, World.eventsSince, capabilityCalls,
          metrics.RegisterPeerTaskCount.Inc, metrics.RegisterPeerTaskFailureCount.Inc]
    · simp [proxy.RegisterPeerTask, bind, Go.bind, Go.invoke, hc, Go.metric,
        World.eventsSince, capabilityCalls, metrics.RegisterPeerTaskCount.Inc]
  · intro haddr
    rcases hc : p.server.ReportPieceResult stream.Context stream w.sched with ⟨out, s1⟩
    rcases haddr with hp | ⟨a, hp⟩
    · cases out <;>
        simp [proxy.ReportPieceResult, bind, Go.bind, Go.invoke, hc, hp, pure, Go.pure,
          Go.metric, Go.withDefer, logger.Infof, peer.FromContext, World.eventsSince,
          capabilityCalls, metrics.ConcurrentScheduleGauge.Inc,
          metrics.ConcurrentScheduleGauge.Dec]
    · cases out <;>
        simp [proxy.ReportPieceResult, bind, Go.bind, Go.invoke, hc, hp, pure, Go.pure,
          Go.metric, Go.withDefer, Go.deref, Addr.String, logger.Infof, peer.FromContext,
          World.eventsSince, capabilityCalls, metrics.ConcurrentScheduleGauge.Inc,
          metrics.ConcurrentScheduleGauge.Dec]
  · rcases hc : p.server.ReportPeerResult ctx res w.sched with ⟨out, s1⟩
    rcases hs : res.Success <;> cases out <;>
      simp [proxy.ReportPeerResult, bind, Go.bind, Go.invoke, hc, hs, pure, Go.pure,
        Go.metric, World.eventsSince, capabilityCalls, Outcome.map,
        metrics.DownloadCount.Inc, metrics.DownloadFailureCount.Inc, metrics.P2PTraffic.Add,
        metrics.PeerTaskDownloadDuration.Observe]
  · rcases hc : p.server.LeaveTask ctx pt w.sched with ⟨out, s1⟩
    cases out <;>
      simp [proxy.LeaveTask, bind, Go.bind, Go.invoke, hc, pure, Go.pure,
        World.eventsSince, capabilityCalls, Outcome.map]

/-- C8 (amended), on a stub capability that registers with scope `NORMAL` and fails
every other operation, for a session of a peer with an address: each operation reaches
the capability exactly once with the caller's arguments, and the capability's answer
comes back. -/
theorem proxy_transparent_delegate_witness :
    ((stubProxy (some normalResult, none) (some errUnavailable)).server.RegisterPeerTask
        ctxWithAddr joinRequest World.fresh.sched).1 ≠ .ret (none, none) ∧
    (session.Context.peer = none ∨
      ∃ a : Addr, session.Context.peer = some (some ⟨some a⟩)) ∧
    capabilityCalls (World.fresh.eventsSince
        ((stubProxy (some normalResult, none) (some errUnavailable)).RegisterPeerTask
          ctxWithAddr joinRequest World.fresh).2) = [.RegisterPeerTask ctxWithAddr joinRequest] ∧
    ((stubProxy (some normalResult, none) (some errUnavailable)).RegisterPeerTask
        ctxWithAddr joinRequest World.fresh).1 = .ret (some normalResult, none) ∧
    ((stubProxy (some normalResult, none) (some errUnavailable)).ReportPieceResult
        session World.fresh).1 = .ret (some errUnavailable) ∧
    capabilityCalls (World.fresh.eventsSince
        ((stubProxy (some normalResult, none) (some errUnavailable)).ReportPieceResult
          session World.fresh).2) = [.ReportPieceResult ctxWithAddr session] ∧
    ((stubProxy (some normalResult, none) (some errUnavailable)).ReportPeerResult
        ctxWithAddr (peerResult true) World.fresh).1
        = .ret (some Empty.mk, some errUnavailable) ∧
    ((stubProxy (some normalResult, none) (some errUnavailable)).LeaveTask
        ctxWithAddr leaveTarget World.fresh).1
        = .ret (some Empty.mk, some errUnavailable) ∧
    ((stubProxy (some normalResult, none) (some errUnavailable)).LeaveTask
        ctxWithAddr leaveTarget World.fresh).2.sched = 1 :=
  have hreg : ((stubProxy (some normalResult, none) (some errUnavailable)).server.RegisterPeerTask
      ctxWithAddr joinRequest World.fresh.sched).1 ≠ .ret (none, none) := by
    simp [stubProxy, stubServer]
  have haddr : session.Context.peer = none ∨
      ∃ a : Addr, session.Context.peer = some (some ⟨some a⟩) :=
    Or.inr ⟨⟨"tcp", "10.0.0.7:65001"⟩, rfl⟩
  have h := proxy_transparent_delegate (stubProxy (some normalResult, none) (some errUnavailable))
    World.fresh ctxWithAddr joinRequest session (peerResult true) leaveTarget
  ⟨hreg, haddr, h.1.1, h.1.2.2 hreg, (h.2.1 haddr).1, (h.2.1 haddr).2.2, h.2.2.1.1,
    h.2.2.2.1, h.2.2.2.2.1⟩

/-! ## The peer address of a streaming session -/

/-- C9 (the code at the failing input): on a stream whose context carries a peer with no
address, `proxy.ReportPieceResult` does not fall back on "unknown": it panics on the
missing address, writes no log line and never invokes the capability's streaming
operation, although that operation would have returned success; only the gauge is
restored. -/
theorem ReportPieceResult_peer_without_address :
    ((stubProxy (none, none) none).ReportPieceResult ⟨ctxNilAddr, []⟩ World.fresh).1
        = .panic nilDereference ∧
    ((stubProxy (none, none) none).server.ReportPieceResult ctxNilAddr ⟨ctxNilAddr, []⟩
        World.fresh.sched).1 = .ret none ∧
    capabilityCalls (World.fresh.eventsSince
        ((stubProxy (none, none) none).ReportPieceResult ⟨ctxNilAddr, []⟩ World.fresh).2) = [] ∧
    ((stubProxy (none, none) none).ReportPieceResult ⟨ctxNilAddr, []⟩ World.fresh).2.trace
        = [.metric .ConcurrentScheduleGaugeInc, .metric .ConcurrentScheduleGaugeDec] ∧
    ((stubProxy (none, none) none).ReportPieceResult ⟨ctxNoPeer, []⟩ World.fresh).2.trace
        = [.metric .ConcurrentScheduleGaugeInc,
           .log "start report piece from: %s" "unknown",
           .call (.ReportPieceResult ctxNoPeer ⟨ctxNoPeer, []⟩) 1,
           .metric .ConcurrentScheduleGaugeDec] := by
  simp [stubProxy, stubServer, proxy.ReportPieceResult, bind, Go.bind, Go.invoke, pure,
    Go.pure, Go.metric, Go.withDefer, Go.deref, Go.panic, Addr.String, logger.Infof,
    peer.FromContext, Stream.Context, ctxNilAddr, ctxNoPeer, World.fresh, World.eventsSince,
    capabilityCalls, Metrics.apply, Metrics.zero, metrics.ConcurrentScheduleGauge.Inc,
    metrics.ConcurrentScheduleGauge.Dec]

/-! ## Integer helpers -/

/-- C4 (the code at the failing input): `MaxInt(1, 2)` is 1, the smaller argument, while
`MaxInt64(1, 2)` is 2; `MaxInt` computes what `MinInt` computes. -/
theorem MaxInt_returns_the_minimum :
    math.MaxInt 1 2 = 1 ∧ math.MaxInt64 1 2 = 2 ∧ math.MaxInt 1 2 < 2 ∧
    math.MaxInt 1 2 = math.MinInt 1 2 := by
  decide

/-! ## Object storage -/

/-- C5 (the code at the failing input): with the object `cat.png` stored in bucket
`images`, `GetOject` for bucket `images` and key `cat.png` asks the bucket for the
object whose key is `images`, the bucket's name, and returns the missing-key error of
that request, although the bucket returns the data for the key `cat.png`;
`DeleteObject` with the same arguments does address the key `cat.png`, and
`CreateObject` stores under the object key it is given. -/
theorem GetOject_requests_the_bucket_name :
    (objectstorage.oss.GetOject ⟨memClient⟩ ctxNoPeer "images" "cat.png" oneObject).1
        = .ret (none, some ⟨"NoSuchKey"⟩) ∧
    (objectstorage.oss.GetOject ⟨memClient⟩ ctxNoPeer "images" "cat.png" oneObject).1
        = .ret ((memBucket "images").GetObject "images" oneObject).1 ∧
    ((memBucket "images").GetObject "cat.png" oneObject).1 = (some ⟨"MEOW"⟩, none) ∧
    (objectstorage.oss.DeleteObject ⟨memClient⟩ ctxNoPeer "images" "cat.png" oneObject)
        = (.ret none, []) ∧
    (objectstorage.oss.CreateObject "digest" ⟨memClient⟩ ctxNoPeer "images" "dog.png"
        "sha256:0a" ⟨"WOOF"⟩ [])
        = (.ret none, [("images", "dog.png", "WOOF")]) := by
  simp [objectstorage.oss.GetOject, objectstorage.oss.DeleteObject,
    objectstorage.oss.CreateObject, memClient, memBucket, oneObject]

end Dragonfly
